import Mathlib

/-!
Verification of the confirmation-tracking engine in `chain/block.go`.

The Go code is embedded sequentially: `sync.Map` operations become pure
updates of a counting function, `atomic` loads/stores become plain reads
and writes of the `maxHeight` field, and the compare-and-swap in
`updateMaxHeight` (which always succeeds in a single-threaded execution,
since nothing can interleave between the load and the CAS) becomes a
direct assignment.  All `uint64` arithmetic is modelled on `Nat` with an
explicit `% 2^64` wherever the Go code can overflow: the counter
increment `atomic.AddUint64(currentCount, 1)` and the loop increment
`blockHeight++`.  The subtraction `height - curMaxHeight` in
`updateMaxHeight` is only evaluated (short-circuit `||`) when
`curMaxHeight ≤ height`, where `uint64` and truncated `Nat` subtraction
agree, so it is written with `Nat` subtraction directly.
-/

set_option maxHeartbeats 1000000

namespace Chain

/-- `2^64`, the modulus of Go's `uint64` arithmetic. -/
def U64 : Nat := 18446744073709551616

/-- Source constant `minAcceptedBlockCount = 3`. -/
def minAcceptedBlockCount : Nat := 3

/-- The `BlockProcessor` struct: the atomically updated accepted-height
cursor `maxHeight`, and the two-level `blockTracker` table flattened to a
counting function `(height, block) ↦ occurrence count` (a pair is absent
from the Go maps exactly when its count here is `0`; counters are created
at `1` and, apart from `uint64` wrap-around, never return to `0`, and a
stored count of `0` after wrap-around behaves identically to an absent
entry because `LoadOrStore`-then-increment and create-at-1 both yield
`(old + 1) % 2^64`). -/
@[ext] structure BlockProcessor where
  maxHeight : Nat
  blockTracker : Nat → String → Nat

/-- `NewBlockProcessor`: cursor at 0 (genesis accepted), empty table. -/
def NewBlockProcessor : BlockProcessor :=
  { maxHeight := 0, blockTracker := fun _ _ => 0 }

/-- `updateMaxHeight` (block.go:98-116): abandon unless `height` is the
immediate successor of the cursor, otherwise set the cursor to `height`
(the CAS always succeeds sequentially). -/
def updateMaxHeight (p : BlockProcessor) (height : Nat) : BlockProcessor :=
  if p.maxHeight > height ∨ height - p.maxHeight ≠ 1 then p
  else { p with maxHeight := height }

/-- Value held by `*currentCount` at the end of the `LoadOrStore` step of
`processBlock` (block.go:83-90): `1` when the `(height, block)` entry was
just created, otherwise the stored count incremented by one in `uint64`
arithmetic. -/
def newCount (p : BlockProcessor) (height : Nat) (block : String) : Nat :=
  if p.blockTracker height block = 0 then 1
  else (p.blockTracker height block + 1) % U64

/-- The table after the `LoadOrStore`/`AddUint64` step of `processBlock`:
the `(height, block)` cell now holds `newCount`, every other cell is
untouched. -/
def storeCount (p : BlockProcessor) (height : Nat) (block : String) : BlockProcessor :=
  { p with blockTracker := fun h b =>
      if h = height ∧ b = block then newCount p height block
      else p.blockTracker h b }

/-- `processBlock` (block.go:71-96): bump the counter of
`(height, block)`, then attempt height advancement when the resulting
count meets `minAcceptedBlockCount`. -/
def processBlock (p : BlockProcessor) (height : Nat) (block : String) : BlockProcessor :=
  if minAcceptedBlockCount ≤ newCount p height block then
    updateMaxHeight (storeCount p height block) height
  else storeCount p height block

/-- The loop of `ProcessBlocks` (block.go:55-67): consecutive heights from
`blockHeight`, skipping any element whose height is not strictly above the
current cursor; `blockHeight++` wraps at `2^64`. -/
def processLoop (p : BlockProcessor) (blockHeight : Nat) : List String → BlockProcessor
  | [] => p
  | block :: rest =>
      processLoop (if blockHeight > p.maxHeight then processBlock p blockHeight block else p)
        ((blockHeight + 1) % U64) rest

/-- `ProcessBlocks` (block.go:54-69): run the loop, then read the cursor
once at the end and return it alongside the final state. -/
def ProcessBlocks (p : BlockProcessor) (startHeight : Nat) (blocks : List String) :
    BlockProcessor × Nat :=
  (processLoop p startHeight blocks, (processLoop p startHeight blocks).maxHeight)

/-- The trace of values returned by a sequence of `ProcessBlocks` calls
`(startHeight, blocks)` executed in order on the same tracker. -/
def runReturns (p : BlockProcessor) : List (Nat × List String) → List Nat
  | [] => []
  | c :: rest =>
      (ProcessBlocks p c.1 c.2).2 :: runReturns (ProcessBlocks p c.1 c.2).1 rest

/-- One `ProcessBlocks` call submitting the single identifier "x" at
height 2; iterating it pumps the `(2, "x")` counter while the cursor
stays at 0 (2 is never the successor of 0). -/
def pump2 (p : BlockProcessor) : BlockProcessor := (ProcessBlocks p 2 ["x"]).1

/-! ### Basic lemmas about the embedded operations -/

theorem updateMaxHeight_eq (p : BlockProcessor) (h : Nat) :
    updateMaxHeight p h = if h = p.maxHeight + 1 then { p with maxHeight := h } else p := by
  unfold updateMaxHeight
  by_cases hc : h = p.maxHeight + 1
  · rw [if_neg (by omega), if_pos hc]
  · rw [if_pos (by omega), if_neg hc]

theorem updateMaxHeight_blockTracker (p : BlockProcessor) (h : Nat) :
    (updateMaxHeight p h).blockTracker = p.blockTracker := by
  rw [updateMaxHeight_eq]
  split <;> rfl

theorem updateMaxHeight_le (p : BlockProcessor) (h : Nat) :
    p.maxHeight ≤ (updateMaxHeight p h).maxHeight := by
  rw [updateMaxHeight_eq]
  by_cases hc : h = p.maxHeight + 1
  · rw [if_pos hc]
    show p.maxHeight ≤ h
    omega
  · rw [if_neg hc]

theorem newCount_eq_of_lt (p : BlockProcessor) (h : Nat) (b : String)
    (hlt : p.blockTracker h b + 1 < U64) :
    newCount p h b = p.blockTracker h b + 1 := by
  unfold newCount
  by_cases h0 : p.blockTracker h b = 0
  · rw [if_pos h0, h0]
  · rw [if_neg h0, Nat.mod_eq_of_lt hlt]

theorem storeCount_maxHeight (p : BlockProcessor) (h : Nat) (b : String) :
    (storeCount p h b).maxHeight = p.maxHeight := rfl

theorem storeCount_apply_self (p : BlockProcessor) (h : Nat) (b : String) :
    (storeCount p h b).blockTracker h b = newCount p h b := by
  show (if h = h ∧ b = b then newCount p h b else p.blockTracker h b) = newCount p h b
  rw [if_pos ⟨rfl, rfl⟩]

theorem storeCount_apply_ne (p : BlockProcessor) (height : Nat) (block : String)
    (h2 : Nat) (b2 : String) (hne : ¬(h2 = height ∧ b2 = block)) :
    (storeCount p height block).blockTracker h2 b2 = p.blockTracker h2 b2 := by
  show (if h2 = height ∧ b2 = block then newCount p height block else p.blockTracker h2 b2) = _
  rw [if_neg hne]

theorem processBlock_blockTracker (p : BlockProcessor) (height : Nat) (block : String) :
    (processBlock p height block).blockTracker = (storeCount p height block).blockTracker := by
  unfold processBlock
  split
  · rw [updateMaxHeight_blockTracker]
  · rfl

theorem processBlock_le (p : BlockProcessor) (height : Nat) (block : String) :
    p.maxHeight ≤ (processBlock p height block).maxHeight := by
  unfold processBlock
  split
  · exact updateMaxHeight_le (storeCount p height block) height
  · exact le_refl _

theorem processLoop_nil (p : BlockProcessor) (h : Nat) : processLoop p h [] = p := rfl

theorem processLoop_cons (p : BlockProcessor) (h : Nat) (b : String) (rest : List String) :
    processLoop p h (b :: rest) =
      processLoop (if h > p.maxHeight then processBlock p h b else p) ((h + 1) % U64) rest := rfl

theorem processLoop_le (p : BlockProcessor) (h : Nat) (bs : List String) :
    p.maxHeight ≤ (processLoop p h bs).maxHeight := by
  induction bs generalizing p h with
  | nil => exact le_refl _
  | cons b rest ih =>
      rw [processLoop_cons]
      refine le_trans ?_ (ih _ _)
      split
      · exact processBlock_le _ _ _
      · exact le_refl _

theorem ProcessBlocks_fst (p : BlockProcessor) (s : Nat) (bs : List String) :
    (ProcessBlocks p s bs).1 = processLoop p s bs := rfl

theorem ProcessBlocks_snd (p : BlockProcessor) (s : Nat) (bs : List String) :
    (ProcessBlocks p s bs).2 = (processLoop p s bs).maxHeight := rfl

/-! ### Claim C1 -/

/-- Claim C1 evaluated on the code: `processBlock` contains no empty-string
check, so on a fresh tracker three calls of `ProcessBlocks 1 [""]` count the
empty identifier to 3 and advance the accepted height to 1, contradicting
the spec, the repository's own test `TestEmptyStringBlockIdsNotAccepted`
and SOLUTION.md ("Blocks with empty strings for IDs are not valid"), which
all require the accepted height to stay 0. -/
theorem emptyId_three_calls_advances :
    (ProcessBlocks (ProcessBlocks (ProcessBlocks NewBlockProcessor 1 [""]).1 1 [""]).1
        1 [""]).2 = 1 := by
  rfl

/-! ### Claim C2 -/

/-- Claim C2 is false as stated: three identical calls of
`ProcessBlocks 1 ["a", "b"]` on a fresh tracker do not return accepted
height 1. -/
theorem abab_three_calls_ne_one :
    (ProcessBlocks (ProcessBlocks (ProcessBlocks NewBlockProcessor 1 ["a", "b"]).1
        1 ["a", "b"]).1 1 ["a", "b"]).2 ≠ 1 := by
  decide

/-- Claim C2 amended: three identical calls of `ProcessBlocks 1 ["a", "b"]`
on a fresh tracker return accepted height exactly 2: during the third call
"a" reaches 3 occurrences at height 1 and is accepted, after which "b"
(which reaches 3 cumulative occurrences at the now-open height 2) is also
accepted within the same call. -/
theorem abab_three_calls_eq_two :
    (ProcessBlocks (ProcessBlocks (ProcessBlocks NewBlockProcessor 1 ["a", "b"]).1
        1 ["a", "b"]).1 1 ["a", "b"]).2 = 2 := by
  rfl

/-! ### Single-call step lemmas -/

theorem single_call_tracker (p : BlockProcessor) (h : Nat) (b : String)
    (hgt : h > p.maxHeight) (hlt : p.blockTracker h b + 1 < U64) :
    (processLoop p h [b]).blockTracker h b = p.blockTracker h b + 1 := by
  rw [processLoop_cons, if_pos hgt, processLoop_nil, processBlock_blockTracker,
    storeCount_apply_self, newCount_eq_of_lt p h b hlt]

theorem single_advance (p : BlockProcessor) (h : Nat) (b : String)
    (hm : h = p.maxHeight + 1) (hcnt : 2 ≤ p.blockTracker h b)
    (hlt : p.blockTracker h b + 1 < U64) :
    (ProcessBlocks p h [b]).1.maxHeight = h := by
  show (processLoop p h [b]).maxHeight = h
  rw [processLoop_cons, if_pos (show h > p.maxHeight by omega), processLoop_nil]
  unfold processBlock
  rw [if_pos (show minAcceptedBlockCount ≤ newCount p h b by
        show 3 ≤ newCount p h b
        rw [newCount_eq_of_lt p h b hlt]
        omega)]
  rw [updateMaxHeight_eq, storeCount_maxHeight, if_pos hm]

theorem single_no_advance (p : BlockProcessor) (h : Nat) (b : String)
    (hgt : h > p.maxHeight) (hsmall : p.blockTracker h b + 1 < 3) :
    (ProcessBlocks p h [b]).1.maxHeight = p.maxHeight ∧
    (ProcessBlocks p h [b]).1.blockTracker h b = p.blockTracker h b + 1 := by
  have hU : (3 : Nat) < U64 := by decide
  have hlt : p.blockTracker h b + 1 < U64 := by omega
  constructor
  · show (processLoop p h [b]).maxHeight = p.maxHeight
    rw [processLoop_cons, if_pos hgt, processLoop_nil]
    unfold processBlock
    rw [if_neg (show ¬minAcceptedBlockCount ≤ newCount p h b by
          show ¬(3 : Nat) ≤ newCount p h b
          rw [newCount_eq_of_lt p h b hlt]
          omega)]
    exact storeCount_maxHeight p h b
  · exact single_call_tracker p h b hgt hlt

theorem single_skip (p : BlockProcessor) (h : Nat) (b : String)
    (hle : h ≤ p.maxHeight) :
    (ProcessBlocks p h [b]).1 = p := by
  show processLoop p h [b] = p
  rw [processLoop_cons, if_neg (show ¬h > p.maxHeight by omega), processLoop_nil]

/-! ### Iterating one call: the pumped counter and the uint64 wrap -/

theorem processBlock_no_advance (p : BlockProcessor) (height : Nat) (block : String)
    (hne : height ≠ p.maxHeight + 1) :
    processBlock p height block = storeCount p height block := by
  unfold processBlock
  split
  · rw [updateMaxHeight_eq, storeCount_maxHeight, if_neg hne]
  · rfl

theorem pump2_step (p : BlockProcessor) (hmax : p.maxHeight = 0) :
    pump2 p = processBlock p 2 "x" := by
  show processLoop p 2 ["x"] = processBlock p 2 "x"
  rw [processLoop_cons, if_pos (show 2 > p.maxHeight by omega), processLoop_nil]

theorem pump2_iter (n : Nat) (hn : n < U64) :
    pump2^[n] NewBlockProcessor =
      { maxHeight := 0,
        blockTracker := fun h b => if h = 2 ∧ b = "x" then n else 0 } := by
  induction n with
  | zero =>
      rw [Function.iterate_zero_apply]
      refine BlockProcessor.ext rfl ?_
      funext h b
      show (0 : Nat) = if h = 2 ∧ b = "x" then 0 else 0
      rw [ite_self]
  | succ n ih =>
      rw [Function.iterate_succ_apply', ih (by omega)]
      set q : BlockProcessor :=
        { maxHeight := 0, blockTracker := fun h b => if h = 2 ∧ b = "x" then n else 0 }
        with hqdef
      have hmax : q.maxHeight = 0 := rfl
      have htr : q.blockTracker 2 "x" = n := by rw [hqdef]; simp
      rw [pump2_step q hmax,
        processBlock_no_advance q 2 "x" (by rw [hmax]; omega)]
      refine BlockProcessor.ext rfl ?_
      funext h b
      show (if h = 2 ∧ b = "x" then newCount q 2 "x" else q.blockTracker h b) =
        if h = 2 ∧ b = "x" then n + 1 else 0
      have hnc : newCount q 2 "x" = n + 1 := by
        rw [newCount_eq_of_lt q 2 "x" (by rw [htr]; omega), htr]
      by_cases hc : h = 2 ∧ b = "x"
      · rw [if_pos hc, if_pos hc, hnc]
      · rw [if_neg hc, if_neg hc, hqdef]
        show (if h = 2 ∧ b = "x" then n else 0) = 0
        rw [if_neg hc]

/-! ### Claim C3 -/

/-- Claim C3: for every height h > 0, `updateMaxHeight` sets the cursor to h
exactly when the cursor is h - 1 at the moment of the attempt; when the
cursor is at or past h, or behind h - 1, the state is unchanged; and the
cursor advances by at most one. -/
theorem updateMaxHeight_succ_iff (p : BlockProcessor) (h : Nat) (hpos : 0 < h) :
    (p.maxHeight = h - 1 → updateMaxHeight p h = { p with maxHeight := h }) ∧
    (p.maxHeight ≠ h - 1 → updateMaxHeight p h = p) ∧
    ((updateMaxHeight p h).maxHeight = p.maxHeight ∨
      (updateMaxHeight p h).maxHeight = p.maxHeight + 1) := by
  rw [updateMaxHeight_eq]
  by_cases hc : h = p.maxHeight + 1
  · refine ⟨fun _ => by rw [if_pos hc], fun hne => absurd (by omega) hne, ?_⟩
    rw [if_pos hc]
    right
    exact hc
  · refine ⟨fun heq => absurd (show h = p.maxHeight + 1 by omega) hc,
      fun _ => by rw [if_neg hc], ?_⟩
    rw [if_neg hc]
    left
    rfl

/-- Witness for C3 at the fresh tracker and h = 1. -/
theorem updateMaxHeight_succ_iff_witness :
    0 < 1 ∧ updateMaxHeight NewBlockProcessor 1 =
      { NewBlockProcessor with maxHeight := 1 } :=
  ⟨Nat.one_pos, (updateMaxHeight_succ_iff NewBlockProcessor 1 Nat.one_pos).1 rfl⟩

/-! ### Claim C4 -/

theorem runReturns_head_le (p : BlockProcessor) (calls : List (Nat × List String))
    (y : Nat) (hy : y ∈ (runReturns p calls).head?) : p.maxHeight ≤ y := by
  cases calls with
  | nil => simp [runReturns] at hy
  | cons c rest =>
      have hy2 : y = (ProcessBlocks p c.1 c.2).2 := by
        simpa [runReturns, eq_comm] using hy
      rw [hy2, ProcessBlocks_snd]
      exact processLoop_le _ _ _

/-- Claim C4: the accepted-height cursor is monotonically non-decreasing:
no `ProcessBlocks` call lowers it, and the trace of values returned by any
sequence of calls on the same tracker never decreases. -/
theorem maxHeight_monotone :
    (∀ (p : BlockProcessor) (s : Nat) (bs : List String),
        p.maxHeight ≤ (ProcessBlocks p s bs).2) ∧
    (∀ (p : BlockProcessor) (calls : List (Nat × List String)),
        List.Chain' (fun a b => a ≤ b) (runReturns p calls)) := by
  constructor
  · intro p s bs
    rw [ProcessBlocks_snd]
    exact processLoop_le p s bs
  · intro p calls
    induction calls generalizing p with
    | nil => exact List.chain'_nil
    | cons c rest ih =>
        show List.Chain' _
          ((ProcessBlocks p c.1 c.2).2 :: runReturns (ProcessBlocks p c.1 c.2).1 rest)
        refine List.chain'_cons'.mpr ⟨?_, ih _⟩
        intro y hy
        exact runReturns_head_le _ _ _ hy

/-! ### Claim C5 -/

/-- Claim C5: for every start height and identifier sequence,
`ProcessBlocks` returns the cursor's value as it stands after the whole
sequence is processed, and that value is never below the cursor at call
entry. -/
theorem processBlocks_returns_final_cursor :
    ∀ (p : BlockProcessor) (s : Nat) (bs : List String),
      (ProcessBlocks p s bs).2 = (ProcessBlocks p s bs).1.maxHeight ∧
      p.maxHeight ≤ (ProcessBlocks p s bs).2 := by
  intro p s bs
  refine ⟨rfl, ?_⟩
  rw [ProcessBlocks_snd]
  exact processLoop_le p s bs

/-! ### Claim C6 -/

/-- Claim C6: a pair whose assigned height is at or below the cursor at the
time it is reached is skipped entirely: the call behaves exactly as if the
pair were absent, so no counter is created or incremented, no advancement
is attempted, and the table is unchanged by that pair. -/
theorem closed_height_skipped (p : BlockProcessor) (h : Nat) (b : String)
    (rest : List String) (hle : h ≤ p.maxHeight) :
    ProcessBlocks p h (b :: rest) = ProcessBlocks p ((h + 1) % U64) rest := by
  unfold ProcessBlocks
  rw [processLoop_cons, if_neg (show ¬h > p.maxHeight by omega)]

/-- Witness for C6 at the fresh tracker, height 0. -/
theorem closed_height_skipped_witness :
    0 ≤ NewBlockProcessor.maxHeight ∧
      ProcessBlocks NewBlockProcessor 0 ["z"] =
        ProcessBlocks NewBlockProcessor ((0 + 1) % U64) [] :=
  ⟨Nat.zero_le _, closed_height_skipped NewBlockProcessor 0 "z" [] (Nat.zero_le _)⟩

/-! ### Claim C9 -/

/-- Claim C9: the same identifier at two different heights is tracked by two
independent counters: `processBlock` at one height never changes a count at
another height; concretely, after height 1 is accepted via "a" three times,
submitting "a" three more times at height 2 advances the accepted height
to 2. -/
theorem independent_counters_per_height :
    (∀ (p : BlockProcessor) (h h2 : Nat) (b b2 : String), h2 ≠ h →
        (processBlock p h b).blockTracker h2 b2 = p.blockTracker h2 b2) ∧
    (ProcessBlocks (ProcessBlocks (ProcessBlocks
        (ProcessBlocks (ProcessBlocks (ProcessBlocks NewBlockProcessor 1 ["a"]).1
          1 ["a"]).1 1 ["a"]).1 2 ["a"]).1 2 ["a"]).1 2 ["a"]).2 = 2 := by
  constructor
  · intro p h h2 b b2 hne
    rw [processBlock_blockTracker]
    exact storeCount_apply_ne p h b h2 b2 (fun hand => hne hand.1)
  · rfl

/-- Witness for C9's independence part at heights 1 and 2. -/
theorem independent_counters_per_height_witness :
    (2 : Nat) ≠ 1 ∧
      (processBlock NewBlockProcessor 1 "a").blockTracker 2 "a" =
        NewBlockProcessor.blockTracker 2 "a" :=
  ⟨by decide, independent_counters_per_height.1 NewBlockProcessor 1 2 "a" "a" (by decide)⟩

/-! ### Claim C10 -/

/-- Claim C10: calling `ProcessBlocks` with start height 0 is safe for any
tracker state: the element assigned height 0 is skipped (the cursor is
never below 0), so the call behaves exactly like a call at start height 1
on the remaining elements; moreover no call ever creates or changes a
counter at height 0. -/
theorem startHeight_zero_behavior :
    (∀ (p : BlockProcessor) (b : String) (rest : List String),
        ProcessBlocks p 0 (b :: rest) = ProcessBlocks p 1 rest) ∧
    (∀ (p : BlockProcessor) (s : Nat) (bs : List String) (b : String),
        (ProcessBlocks p s bs).1.blockTracker 0 b = p.blockTracker 0 b) := by
  constructor
  · intro p b rest
    have hmod : (0 + 1) % U64 = 1 := by decide
    unfold ProcessBlocks
    rw [processLoop_cons, if_neg (show ¬0 > p.maxHeight by omega), hmod]
  · intro p s bs b
    rw [ProcessBlocks_fst]
    induction bs generalizing p s with
    | nil => rfl
    | cons b2 rest ih =>
        rw [processLoop_cons, ih]
        split
        case isTrue hgt =>
          rw [processBlock_blockTracker]
          exact storeCount_apply_ne p s b2 0 b (fun hand => absurd hand.1 (by omega))
        case isFalse hgt => rfl

/-! ### Claim C7 -/

/-- Claim C7 is false as stated on the code, because counters are uint64
and wrap: pump the (2, "x") counter to 2^64 - 1 while the cursor stays at
0, accept height 1 via "a" three times so the cursor is 1 = 2 - 1, then
submit the non-empty identifier "x" at height 2 three more times; its
counter wraps to 0, 1, 2, never meeting the threshold, so the cursor stays
at 1 instead of advancing to 2 as the claim requires. -/
theorem threshold_wrap_no_advance :
    (ProcessBlocks (ProcessBlocks (ProcessBlocks
        (ProcessBlocks (ProcessBlocks (ProcessBlocks
          (pump2^[U64 - 1] NewBlockProcessor) 1 ["a"]).1 1 ["a"]).1 1 ["a"]).1
        2 ["x"]).1 2 ["x"]).1 2 ["x"]).2 ≠ 2 := by
  rw [pump2_iter (U64 - 1) (by decide)]
  decide

/-- Claim C7 amended: the confirmation threshold is 3: the cursor moves in
`processBlock` only when the stored count of the processed pair meets the
threshold after the bump, and then it moves exactly to that pair's height,
the successor of the old cursor; and submitting three occurrences of a
non-empty identifier at height h while the cursor is h - 1 advances the
cursor to exactly h, provided the pair's uint64 counter does not wrap
around (its prior count is at least 3 below 2^64). -/
theorem threshold_three :
    minAcceptedBlockCount = 3 ∧
    (∀ (p : BlockProcessor) (h : Nat) (b : String),
        (processBlock p h b).maxHeight ≠ p.maxHeight →
          minAcceptedBlockCount ≤ (processBlock p h b).blockTracker h b ∧
          (processBlock p h b).maxHeight = h ∧ h = p.maxHeight + 1) ∧
    (∀ (p : BlockProcessor) (h : Nat) (b : String),
        0 < h → b ≠ "" → p.maxHeight = h - 1 → p.blockTracker h b + 3 < U64 →
        (ProcessBlocks (ProcessBlocks (ProcessBlocks p h [b]).1 h [b]).1 h [b]).2 = h) := by
  refine ⟨rfl, ?_, ?_⟩
  · intro p h b hch
    unfold processBlock at hch ⊢
    by_cases hth : minAcceptedBlockCount ≤ newCount p h b
    · rw [if_pos hth] at hch ⊢
      rw [updateMaxHeight_eq, storeCount_maxHeight] at hch ⊢
      by_cases hsucc : h = p.maxHeight + 1
      · rw [if_pos hsucc]
        refine ⟨?_, rfl, hsucc⟩
        show minAcceptedBlockCount ≤ (storeCount p h b).blockTracker h b
        rw [storeCount_apply_self]
        exact hth
      · rw [if_neg hsucc] at hch
        exact absurd (storeCount_maxHeight p h b) hch
    · rw [if_neg hth] at hch
      exact absurd (storeCount_maxHeight p h b) hch
  · intro p h b hpos hbne hm hlt
    have hm2 : h = p.maxHeight + 1 := by omega
    have hU : (3 : Nat) < U64 := by decide
    rcases Nat.lt_or_ge (p.blockTracker h b) 2 with hc2 | hc2
    · have hcase : p.blockTracker h b = 0 ∨ p.blockTracker h b = 1 := by omega
      rcases hcase with h0 | h1
      · have hb1 := single_no_advance p h b (by omega) (by omega)
        have hb2 := single_no_advance (ProcessBlocks p h [b]).1 h b
          (by rw [hb1.1]; omega) (by rw [hb1.2]; omega)
        have ha := single_advance
          (ProcessBlocks (ProcessBlocks p h [b]).1 h [b]).1 h b
          (by rw [hb2.1, hb1.1]; exact hm2)
          (by rw [hb2.2, hb1.2]; omega)
          (by rw [hb2.2, hb1.2]; omega)
        rw [ProcessBlocks_snd, ← ProcessBlocks_fst]
        exact ha
      · have hb1 := single_no_advance p h b (by omega) (by omega)
        have ha := single_advance (ProcessBlocks p h [b]).1 h b
          (by rw [hb1.1]; exact hm2)
          (by rw [hb1.2]; omega)
          (by rw [hb1.2]; omega)
        rw [ProcessBlocks_snd, ← ProcessBlocks_fst,
          single_skip (ProcessBlocks (ProcessBlocks p h [b]).1 h [b]).1 h b
            (le_of_eq ha.symm), ha]
    · have ha := single_advance p h b hm2 hc2 (by omega)
      have h2 := single_skip (ProcessBlocks p h [b]).1 h b (le_of_eq ha.symm)
      rw [ProcessBlocks_snd, ← ProcessBlocks_fst, h2, h2, ha]

/-- Witness for C7's amended theorem: the cursor-move part at a state whose
(1, "a") counter holds 2, and the three-submissions part on a fresh
tracker at height 1. -/
theorem threshold_three_witness :
    (processBlock
        ({ maxHeight := 0,
           blockTracker := fun h b => if h = 1 ∧ b = "a" then 2 else 0 } : BlockProcessor)
        1 "a").maxHeight = 1 ∧
    (ProcessBlocks (ProcessBlocks (ProcessBlocks NewBlockProcessor 1 ["a"]).1 1 ["a"]).1
        1 ["a"]).2 = 1 :=
  ⟨(threshold_three.2.1 _ 1 "a" (by decide)).2.1,
   threshold_three.2.2 NewBlockProcessor 1 "a" (by decide) (by decide) (by decide) (by decide)⟩

/-! ### Claim C8 -/

/-- Claim C8 is false as stated on the code, because counters are uint64
and wrap: after 2^64 - 1 observations of "x" at the open height 2 (the
cursor stays at 0 throughout, since 2 is never its successor) the counter
holds 2^64 - 1, and one further observation at the still-open height wraps
it to 0 — the counter is decremented rather than incremented by one. -/
theorem counter_wrap_decrements :
    (pump2^[U64 - 1] NewBlockProcessor).blockTracker 2 "x" = U64 - 1 ∧
    (pump2^[U64] NewBlockProcessor).blockTracker 2 "x" = 0 := by
  have h1 := pump2_iter (U64 - 1) (by decide)
  have hidx : U64 - 1 + 1 = U64 := Nat.sub_add_cancel (by decide)
  have h2 := Function.iterate_succ_apply' pump2 (U64 - 1) NewBlockProcessor
  rw [Nat.succ_eq_add_one, hidx] at h2
  constructor
  · rw [h1]
    decide
  · rw [h2, h1]
    decide

/-- Claim C8 amended: occurrence counting is cumulative across separate
`ProcessBlocks` calls: at an open height, an observation of a pair takes
its counter from c to c + 1 (creating it at 1 when absent, since c = 0
then), provided the counter does not wrap around uint64 (c + 1 < 2^64);
the threshold is evaluated against this cumulative count. -/
theorem count_increments_by_one (p : BlockProcessor) (h : Nat) (b : String)
    (hgt : h > p.maxHeight) (hlt : p.blockTracker h b + 1 < U64) :
    (ProcessBlocks p h [b]).1.blockTracker h b = p.blockTracker h b + 1 :=
  single_call_tracker p h b hgt hlt

/-- Witness for C8's amended theorem on a fresh tracker at height 1. -/
theorem count_increments_by_one_witness :
    1 > NewBlockProcessor.maxHeight ∧
      (ProcessBlocks NewBlockProcessor 1 ["a"]).1.blockTracker 1 "a" =
        NewBlockProcessor.blockTracker 1 "a" + 1 :=
  ⟨by decide, count_increments_by_one NewBlockProcessor 1 "a" (by decide) (by decide)⟩

end Chain
